import Mathlib

/-!
Verification development for the `proud-firefly-5d44` Cloudflare Worker
(`src/index.ts`): a chat front-end consisting of a request router
(`export default { fetch }`) and a per-session durable object (`ChatRoom`)
holding a bounded conversation history.

The TypeScript source is shallowly embedded below.  Platform builtins used by
the source (JS `String.prototype.trim`, `String.prototype.split`,
`Array.prototype.join`, `encodeURIComponent`, `decodeURIComponent`, JSON value
coercion via `toString`) are modelled as explicit Lean functions on
`List Char` / `String`.  Effects (durable-object storage, the Workers AI
binding, the DO stub round-trip, `crypto.randomUUID`) are modelled by passing
their contents or outcomes as explicit inputs and recording writes and calls
in the result structure.
-/

/-! ## Models of the JavaScript string primitives used by the source -/

/-- Whitespace recognised by the model of JS `String.prototype.trim`
(the common ASCII whitespace characters). -/
def jsWhitespace (c : Char) : Bool :=
  c = ' ' ∨ c = '\t' ∨ c = '\n' ∨ c = '\r' ∨ c = '\x0b' ∨ c = '\x0c'

/-- Model of JS `String.prototype.trim`: drop leading and trailing
whitespace. -/
def jsTrim (s : String) : String :=
  ⟨(((s.data.dropWhile jsWhitespace).reverse.dropWhile jsWhitespace).reverse)⟩

/-- Core of the model of JS `String.prototype.split` with a one-character
separator: split a character list at every occurrence of `sep`.  The result is
always nonempty (JS `split` never returns an empty array). -/
def splitChar (sep : Char) : List Char → List (List Char)
  | [] => [[]]
  | c :: rest =>
    let r := splitChar sep rest
    if c = sep then [] :: r
    else (c :: r.headD []) :: r.tail

/-- Model of JS `String.prototype.split` with a one-character separator. -/
def jsSplit (s : String) (sep : Char) : List String :=
  (splitChar sep s.data).map (fun l => ⟨l⟩)

/-- Model of JS `Array.prototype.join` on an array of strings. -/
def joinSep (sep : String) : List String → String
  | [] => ""
  | [x] => x
  | x :: xs => x ++ sep ++ joinSep sep xs

/-! ## Models of `encodeURIComponent` / `decodeURIComponent`

`encodeURIComponent` leaves the unreserved characters
`A-Z a-z 0-9 - _ . ! ~ * ' ( )` untouched and percent-encodes the UTF-8 bytes
of every other character using uppercase hexadecimal digits.
`decodeURIComponent` parses percent escapes (accepting either hex case),
reassembles UTF-8 byte sequences into characters, and throws `URIError` —
modelled by returning `none` — on a malformed escape, on a structurally
invalid byte sequence, and on overlong encodings, UTF-16 surrogate values and
values above `0x10FFFF`, as the real builtin does. -/

/-- Characters that `encodeURIComponent` leaves unescaped. -/
def uriUnreserved (c : Char) : Bool :=
  ('A' ≤ c ∧ c ≤ 'Z') ∨ ('a' ≤ c ∧ c ≤ 'z') ∨ ('0' ≤ c ∧ c ≤ '9') ∨
    c = '-' ∨ c = '_' ∨ c = '.' ∨ c = '!' ∨ c = '~' ∨ c = '*' ∨
    c = '\'' ∨ c = '(' ∨ c = ')'

/-- Uppercase hexadecimal digit for a value below 16. -/
def toHexDigit (d : Nat) : Char :=
  if d < 10 then Char.ofNat ('0'.toNat + d) else Char.ofNat ('A'.toNat + d - 10)

/-- Value of a hexadecimal digit character, either case accepted. -/
def fromHexDigit (c : Char) : Option Nat :=
  let n := c.toNat
  if 48 ≤ n ∧ n ≤ 57 then some (n - 48)
  else if 65 ≤ n ∧ n ≤ 70 then some (n - 55)
  else if 97 ≤ n ∧ n ≤ 102 then some (n - 87)
  else none

/-- UTF-8 bytes of a code point. -/
def utf8Bytes (n : Nat) : List Nat :=
  if n < 0x80 then [n]
  else if n < 0x800 then [0xC0 + n / 64, 0x80 + n % 64]
  else if n < 0x10000 then
    [0xE0 + n / 4096, 0x80 + n / 64 % 64, 0x80 + n % 64]
  else
    [0xF0 + n / 262144, 0x80 + n / 4096 % 64, 0x80 + n / 64 % 64, 0x80 + n % 64]

/-- Percent-escape of one byte, uppercase hex. -/
def escByte (b : Nat) : List Char :=
  ['%', toHexDigit (b / 16), toHexDigit (b % 16)]

/-- Encoding of a single character by `encodeURIComponent`. -/
def encodeChar (c : Char) : List Char :=
  if uriUnreserved c then [c] else (utf8Bytes c.toNat).flatMap escByte

/-- Model of JS `encodeURIComponent`. -/
def encodeURIComponent (s : String) : String :=
  ⟨s.data.flatMap encodeChar⟩

/-- Token produced by the first phase of percent-decoding: either a literal
character, or a byte recovered from a percent escape. -/
inductive PctTok
  | lit (c : Char)
  | byte (b : Nat)
deriving DecidableEq, Repr

/-- First phase of `decodeURIComponent`: turn percent escapes into bytes,
leaving all other characters literal.  `none` on a malformed escape. -/
def pctTokens : List Char → Option (List PctTok)
  | [] => some []
  | c :: rest =>
    if c = '%' then
      match rest with
      | h1 :: h2 :: rest2 =>
        match fromHexDigit h1, fromHexDigit h2 with
        | some d1, some d2 =>
          (pctTokens rest2).map (fun ts => PctTok.byte (16 * d1 + d2) :: ts)
        | _, _ => none
      | _ => none
    else (pctTokens rest).map (fun ts => PctTok.lit c :: ts)

/-- A UTF-8 continuation byte. -/
def contByte (b : Nat) : Bool := 0x80 ≤ b ∧ b < 0xC0

mutual

/-- Second phase of `decodeURIComponent`: reassemble UTF-8 byte sequences into
characters; literal characters pass through.  `none` on a byte sequence that
is not structurally valid UTF-8.  A leading byte hands its payload bits to
`utf8Cont3`/`utf8Cont2`/`utf8Cont1`, which consume the continuation bytes. -/
def toksDecode : List PctTok → Option (List Char)
  | [] => some []
  | PctTok.lit c :: rest => (toksDecode rest).map (fun cs => c :: cs)
  | PctTok.byte b :: rest =>
    if b < 0x80 then (toksDecode rest).map (fun cs => Char.ofNat b :: cs)
    else if b < 0xC0 then none
    else if b < 0xE0 then utf8Cont1 0x80 (b - 0xC0) rest
    else if b < 0xF0 then utf8Cont2 0x800 (b - 0xE0) rest
    else if b < 0xF8 then utf8Cont3 0x10000 (b - 0xF0) rest
    else none

/-- Read the final continuation byte of a multi-byte UTF-8 sequence, complete
the code point, and decode the remainder.  As the real builtin (`URIError`),
reject overlong encodings — a completed value below `lo`, the smallest value
a sequence of this length may carry — as well as UTF-16 surrogate values and
values above `0x10FFFF`. -/
def utf8Cont1 (lo acc : Nat) : List PctTok → Option (List Char)
  | PctTok.byte b :: rest =>
    if contByte b then
      if lo ≤ acc * 64 + (b - 0x80) ∧
          (acc * 64 + (b - 0x80) < 0xD800 ∨ 0xE000 ≤ acc * 64 + (b - 0x80)) ∧
          acc * 64 + (b - 0x80) ≤ 0x10FFFF then
        (toksDecode rest).map
          (fun cs => Char.ofNat (acc * 64 + (b - 0x80)) :: cs)
      else none
    else none
  | _ => none

/-- Read one continuation byte, one more to follow. -/
def utf8Cont2 (lo acc : Nat) : List PctTok → Option (List Char)
  | PctTok.byte b :: rest =>
    if contByte b then utf8Cont1 lo (acc * 64 + (b - 0x80)) rest else none
  | _ => none

/-- Read one continuation byte, two more to follow. -/
def utf8Cont3 (lo acc : Nat) : List PctTok → Option (List Char)
  | PctTok.byte b :: rest =>
    if contByte b then utf8Cont2 lo (acc * 64 + (b - 0x80)) rest else none
  | _ => none

end

/-- Model of JS `decodeURIComponent`; `none` models a thrown `URIError`. -/
def decodeURIComponent (s : String) : Option String :=
  match pctTokens s.data with
  | none => none
  | some toks => (toksDecode toks).map (fun cs => ⟨cs⟩)

/-- The token list that the first decode phase recovers from the encoding of
one character. -/
def tokensOf (c : Char) : List PctTok :=
  if uriUnreserved c then [PctTok.lit c]
  else (utf8Bytes c.toNat).map PctTok.byte

/-! ## A model of JSON values and the JS coercions applied to them -/

/-- JSON-like JavaScript values, as produced by `request.json()` /
`JSON.parse`.  `null` also stands for `undefined`; numbers are restricted to
integers (all numbers appearing in the claims are integral). -/
inductive JsValue
  | null
  | bool (b : Bool)
  | num (n : Int)
  | str (s : String)
  | arr (xs : List JsValue)
  | obj (fields : List (String × JsValue))

mutual

/-- Model of the JS `toString()` coercion on a (non-null) JSON value. -/
def jsToString : JsValue → String
  | JsValue.null => "null"
  | JsValue.bool b => cond b "true" "false"
  | JsValue.num n => toString n
  | JsValue.str s => s
  | JsValue.arr xs => jsArr xs
  | JsValue.obj _ => "[object Object]"

/-- Model of `Array.prototype.toString`: elements joined with commas, with
`null`/`undefined` elements rendered empty. -/
def jsArr : List JsValue → String
  | [] => ""
  | [v] => jsElem v
  | v :: vs => jsElem v ++ "," ++ jsArr vs

/-- Rendering of one array element inside `Array.prototype.toString`. -/
def jsElem : JsValue → String
  | JsValue.null => ""
  | JsValue.bool b => cond b "true" "false"
  | JsValue.num n => toString n
  | JsValue.str s => s
  | JsValue.arr xs => jsArr xs
  | JsValue.obj _ => "[object Object]"

end

/-- Model of the JS expression `(v?.name ?? "").toString()`: property access
on a possibly-absent object, with `null`/`undefined`/missing collapsing to the
empty string and any other value coerced via `toString()`.  Object keys are
assumed unique (as produced by `JSON.parse`). -/
def jsField (v : JsValue) (name : String) : String :=
  match v with
  | JsValue.obj fields =>
    match fields.lookup name with
    | none => ""
    | some JsValue.null => ""
    | some w => jsToString w
  | _ => ""

/-- The expression `(body?.message ?? "").toString().trim()` from
`index.ts:161` and `index.ts:237`. -/
def coerceMessage (body : JsValue) : String := jsTrim (jsField body "message")

/-- The expression `(aiResult?.response ?? "").toString().trim()` from
`index.ts:266`. -/
def coerceResponse (aiResult : JsValue) : String :=
  jsTrim (jsField aiResult "response")

/-! ## Data model of the worker (`index.ts:6-11`) -/

/-- Message roles occurring in the source: the persisted `ChatMessage` type
uses `"user" | "assistant"`, and the priming message built at `index.ts:245`
uses `"system"`. -/
inductive Role
  | user
  | assistant
  | system
deriving DecidableEq, Repr

/-- A chat message, `{ role, content }`. -/
structure ChatMessage where
  role : Role
  content : String
deriving DecidableEq, Repr

/-- Inference model identifier (`index.ts:8`). -/
def MODEL : String := "@cf/meta/llama-3.1-8b-instruct"

/-- The system priming message content (`index.ts:9-10`). -/
def SYSTEM_PROMPT : String :=
  "You are a concise, helpful assistant. Keep answers short and practical."

/-- Maximum persisted history length (`index.ts:11`). -/
def MAX_HISTORY : Nat := 20

/-! ## Cookie helpers (`index.ts:14-28`) -/

/-- Loop body of `getCookie` (`index.ts:17-20`): scan the `;`-split parts, and
on the first part whose key (before the first `=`) equals `name`, return
`decodeURIComponent` of the rejoined remainder.  `Except.error` models the
`URIError` thrown by `decodeURIComponent` on a malformed value. -/
def getCookieLoop (name : String) : List String → Except String (Option String)
  | [] => Except.ok none
  | part :: rest =>
    match jsSplit (jsTrim part) '=' with
    | [] => getCookieLoop name rest
    | k :: v =>
      if k = name then
        match decodeURIComponent (joinSep "=" v) with
        | some d => Except.ok (some d)
        | none => Except.error "URIError: URI malformed"
      else getCookieLoop name rest

/-- `getCookie` (`index.ts:14-22`), taking the request `Cookie` header as an
optional string. -/
def getCookie (cookieHeader : Option String) (name : String) :
    Except String (Option String) :=
  match cookieHeader with
  | none => Except.ok none
  | some cookie => getCookieLoop name (jsSplit cookie ';')

/-- `makeSessionCookie` (`index.ts:24-28`). -/
def makeSessionCookie (sessionId : String) (secure : Bool) : String :=
  "session=" ++ encodeURIComponent sessionId ++
    "; Path=/; HttpOnly; SameSite=Lax; Max-Age=2592000" ++
    (if secure then "; Secure" else "")

/-! ## The `ChatRoom` durable object (`index.ts:221-288`) -/

/-- The eviction loop `while (history.length > MAX_HISTORY) history.shift()`
(`index.ts:243` and `index.ts:276`), with an explicit fuel argument bounding
the number of iterations: each iteration drops the oldest (front) entry while
the history is over the limit.  The fuel is consumed only while the guard
holds, so any fuel of at least `history.length` yields the loop's result. -/
def evictFuel : Nat → List ChatMessage → List ChatMessage
  | 0, history => history
  | fuel + 1, history =>
    if MAX_HISTORY < history.length then evictFuel fuel history.tail
    else history

/-- The eviction loop at `index.ts:243` and `index.ts:276`: the loop runs at
most `history.length` iterations, so this fuel is always sufficient. -/
def evict (history : List ChatMessage) : List ChatMessage :=
  evictFuel history.length history

/-- The two append-then-evict steps a successful request performs on the
history (`index.ts:242-243` and `index.ts:275-276`). -/
def evictStep (h0 : List ChatMessage) (u a : ChatMessage) : List ChatMessage :=
  evict (evict (h0 ++ [u]) ++ [a])

/-- Number of front entries `evictStep` drops from the prior history of
length `n`. -/
def dropCount (n : Nat) : Nat :=
  (n + 1 - MAX_HISTORY) + (min (n + 1) MAX_HISTORY + 1 - MAX_HISTORY)

/-- State of the Workers AI binding as seen by one `ChatRoom.fetch` call:
absent (`env.AI` falsy, `index.ts:249`), or present with the outcome of the
single `env.AI.run` invocation injected (it throws, or returns a value). -/
inductive AIEnv
  | missing
  | throws (err : String)
  | result (v : JsValue)

/-- Observable outcome of one `ChatRoom.fetch` call.  Fields, in order:
HTTP status; JSON response payload; the `reply` string on the success path;
the value passed to `storage.put("history", ·)` if the put executed; the
storage contents after the call; whether `storage.get("history")` executed;
whether `env.AI.run` was invoked; the `messages` list built at `index.ts:245`
(the list passed to inference when it is called). -/
structure ChatRoomOutcome where
  status : Nat
  body : JsValue
  reply : Option String
  written : Option (List ChatMessage)
  storageAfter : Option (List ChatMessage)
  storageRead : Bool
  aiCalled : Bool
  messages : Option (List ChatMessage)

/-- `ChatRoom.fetch` (`index.ts:224-287`).  Inputs: the request method, the
parsed JSON body (`none` models `request.json()` throwing), the AI binding
state, and the prior contents of the durable storage key `"history"`.
The generation parameters passed to `env.AI.run` (`max_tokens: 256`,
`temperature: 0.6`) have no observable effect here and are not modelled. -/
def chatRoomFetch (method : String) (body : Option JsValue) (ai : AIEnv)
    (storage : Option (List ChatMessage)) : ChatRoomOutcome :=
  if method ≠ "POST" then
    ⟨405, JsValue.obj [("error", JsValue.str "Method not allowed")],
      none, none, storage, false, false, none⟩
  else
    match body with
    | none =>
      ⟨400, JsValue.obj [("error", JsValue.str "Invalid JSON")],
        none, none, storage, false, false, none⟩
    | some b =>
      let message := coerceMessage b
      if message = "" then
        ⟨400, JsValue.obj [("error", JsValue.str "Missing message")],
          none, none, storage, false, false, none⟩
      else
        let history1 := evict (storage.getD [] ++ [⟨Role.user, message⟩])
        let msgs := ⟨Role.system, SYSTEM_PROMPT⟩ :: history1
        match ai with
        | AIEnv.missing =>
          let reply := "DEV MODE (no Workers AI). You said: " ++ message
          let history2 := evict (history1 ++ [⟨Role.assistant, reply⟩])
          ⟨200, JsValue.obj [("reply", JsValue.str reply)],
            some reply, some history2, some history2, true, false, some msgs⟩
        | AIEnv.throws err =>
          ⟨502, JsValue.obj [("error", JsValue.str "Workers AI call failed"),
              ("details", JsValue.str err)],
            none, none, storage, true, true, some msgs⟩
        | AIEnv.result v =>
          let reply := coerceResponse v
          if reply = "" then
            ⟨502, JsValue.obj [("error", JsValue.str "Empty AI response"),
                ("aiResult", v)],
              none, none, storage, true, true, some msgs⟩
          else
            let history2 := evict (history1 ++ [⟨Role.assistant, reply⟩])
            ⟨200, JsValue.obj [("reply", JsValue.str reply)],
              some reply, some history2, some history2, true, true, some msgs⟩

/-! ## The request router (`index.ts:117-219`) -/

/-- Model of JS `String.prototype.includes`. -/
def strIncludes (s pat : String) : Bool := decide (pat.data <:+: s.data)

/-- Outcome of `stub.fetch("https://do/chat", ...)` as seen by the router:
the dispatch throws, or a response arrives with a status, a `content-type`
header value (absent modelled as `""`, `index.ts:181`), the raw body text,
and the injected outcome of `JSON.parse` on that text (`none` models a parse
failure). -/
inductive StubOutcome
  | throws (err : String)
  | response (status : Nat) (contentType : String) (raw : String)
      (parsed : Option JsValue)

/-- Observable outcome of one router `fetch` call.  Fields, in order: HTTP
status; the `set-cookie` header attached to the response, if any; whether the
durable-object stub was invoked. -/
structure RouterOutcome where
  status : Nat
  setCookie : Option String
  doCalled : Bool
deriving DecidableEq, Repr

/-- The router `fetch` (`index.ts:118-218`).  Inputs: request method and
path, the `Cookie` header, whether the URL scheme is `https:`, the value
`crypto.randomUUID()` would return, the parsed JSON body of the request
(`none` models `request.json()` throwing), and the outcome of the DO stub
call.  `Except.error` models an uncaught `URIError` escaping from
`getCookie`. -/
def workerFetch (method path : String) (cookieHeader : Option String)
    (secure : Bool) (uuid : String) (body : Option JsValue)
    (stub : StubOutcome) : Except String RouterOutcome :=
  if method = "GET" ∧ path = "/health" then
    Except.ok ⟨200, none, false⟩
  else if method = "GET" ∧ path = "/" then
    match getCookie cookieHeader "session" with
    | Except.error e => Except.error e
    | Except.ok (some _) => Except.ok ⟨200, none, false⟩
    | Except.ok none =>
      Except.ok ⟨200, some (makeSessionCookie uuid secure), false⟩
  else if method = "POST" ∧ path = "/api/chat" then
    match getCookie cookieHeader "session" with
    | Except.error e => Except.error e
    | Except.ok sid =>
      let setCookie :=
        match sid with
        | none => some (makeSessionCookie uuid secure)
        | some _ => none
      match body with
      | none => Except.ok ⟨400, none, false⟩
      | some b =>
        if coerceMessage b = "" then Except.ok ⟨400, none, false⟩
        else
          match stub with
          | StubOutcome.throws _ => Except.ok ⟨502, none, true⟩
          | StubOutcome.response st ct _ parsed =>
            if strIncludes ct "application/json" then
              match parsed with
              | none => Except.ok ⟨502, none, true⟩
              | some _ =>
                if 200 ≤ st ∧ st ≤ 299 then Except.ok ⟨200, setCookie, true⟩
                else Except.ok ⟨st, none, true⟩
            else Except.ok ⟨502, none, true⟩
  else Except.ok ⟨404, none, false⟩

/-! ## Lemmas about the eviction loop -/

/-- With sufficient fuel, the eviction loop drops exactly the oldest
`length - MAX_HISTORY` entries. -/
theorem evictFuel_eq_drop :
    ∀ (n : Nat) (l : List ChatMessage), l.length ≤ n →
      evictFuel n l = l.drop (l.length - MAX_HISTORY) := by
  intro n
  induction n with
  | zero =>
    intro l hl
    have hnil : l = [] := List.eq_nil_of_length_eq_zero (Nat.le_zero.mp hl)
    subst hnil
    rfl
  | succ n ih =>
    intro l hl
    cases l with
    | nil => rfl
    | cons a as =>
      simp only [evictFuel]
      by_cases h : MAX_HISTORY < (a :: as).length
      · rw [if_pos h, List.tail_cons, ih as (by simp at hl; omega)]
        have hM : MAX_HISTORY = 20 := rfl
        have h20 : (a :: as).length - MAX_HISTORY = (as.length - MAX_HISTORY) + 1 := by
          simp only [List.length_cons] at h ⊢
          omega
        rw [h20, List.drop_succ_cons]
      · rw [if_neg h]
        have hz : (a :: as).length - MAX_HISTORY = 0 := by omega
        rw [hz, List.drop_zero]

/-- The eviction loop is front-eviction: it drops exactly the oldest
`length - MAX_HISTORY` entries. -/
theorem evict_eq_drop (l : List ChatMessage) :
    evict l = l.drop (l.length - MAX_HISTORY) :=
  evictFuel_eq_drop l.length l (Nat.le_refl _)

/-- Length after eviction. -/
theorem length_evict (l : List ChatMessage) :
    (evict l).length = min l.length MAX_HISTORY := by
  rw [evict_eq_drop, List.length_drop]
  omega

/-- Eviction never leaves more than `MAX_HISTORY` entries. -/
theorem length_evict_le (l : List ChatMessage) :
    (evict l).length ≤ MAX_HISTORY := by
  rw [length_evict]
  omega

/-- Evicting after appending one entry keeps the appended entry and drops
only from the front. -/
theorem evict_append_singleton (h : List ChatMessage) (a : ChatMessage) :
    evict (h ++ [a]) = h.drop (h.length + 1 - MAX_HISTORY) ++ [a] := by
  have hM : MAX_HISTORY = 20 := rfl
  rw [evict_eq_drop, List.length_append, List.length_cons, List.length_nil,
    List.drop_append_of_le_length (by omega)]

/-- `evictStep` appends the two new entries and drops `dropCount` of the
oldest entries. -/
theorem evictStep_eq (h0 : List ChatMessage) (u a : ChatMessage) :
    evictStep h0 u a = h0.drop (dropCount h0.length) ++ [u, a] := by
  have hM : MAX_HISTORY = 20 := rfl
  unfold evictStep
  rw [evict_append_singleton h0 u, evict_append_singleton _ a,
    List.drop_append_of_le_length
      (by
        simp only [List.length_append, List.length_drop, List.length_cons,
          List.length_nil]
        omega),
    List.drop_drop, List.append_assoc]
  have hidx :
      h0.length + 1 - MAX_HISTORY +
        ((h0.drop (h0.length + 1 - MAX_HISTORY) ++ [u]).length + 1 -
          MAX_HISTORY) =
      dropCount h0.length := by
    simp only [dropCount, List.length_append, List.length_drop,
      List.length_cons, List.length_nil]
    omega
  rw [hidx]
  rfl

/-- `evictStep` never drops more entries than the prior history has. -/
theorem dropCount_le (n : Nat) : dropCount n ≤ n := by
  have hM : MAX_HISTORY = 20 := rfl
  simp only [dropCount]
  omega

/-- When the prior history has at least two entries, `evictStep` keeps its
last two entries. -/
theorem dropCount_le_sub_two (n : Nat) (h : 2 ≤ n) : dropCount n ≤ n - 2 := by
  have hM : MAX_HISTORY = 20 := rfl
  simp only [dropCount]
  omega

/-! ## Branch characterizations of `ChatRoom.fetch` -/

/-- Non-POST methods are rejected with 405 before anything else
(`index.ts:226-228`). -/
theorem chatRoomFetch_not_post (method : String) (body : Option JsValue)
    (ai : AIEnv) (st : Option (List ChatMessage)) (hm : method ≠ "POST") :
    chatRoomFetch method body ai st =
      ⟨405, JsValue.obj [("error", JsValue.str "Method not allowed")],
        none, none, st, false, false, none⟩ := by
  unfold chatRoomFetch
  rw [if_pos hm]

/-- A body that fails to parse is rejected with 400 (`index.ts:230-235`). -/
theorem chatRoomFetch_invalid_json (ai : AIEnv)
    (st : Option (List ChatMessage)) :
    chatRoomFetch "POST" none ai st =
      ⟨400, JsValue.obj [("error", JsValue.str "Invalid JSON")],
        none, none, st, false, false, none⟩ := by
  unfold chatRoomFetch
  rw [if_neg (by simp)]

/-- A missing or blank `message` is rejected with 400 (`index.ts:237-238`). -/
theorem chatRoomFetch_blank (b : JsValue) (ai : AIEnv)
    (st : Option (List ChatMessage)) (hb : coerceMessage b = "") :
    chatRoomFetch "POST" (some b) ai st =
      ⟨400, JsValue.obj [("error", JsValue.str "Missing message")],
        none, none, st, false, false, none⟩ := by
  unfold chatRoomFetch
  rw [if_neg (by simp)]
  simp [hb]

/-- The development fallback branch (`index.ts:249-250`): `env.AI` absent. -/
theorem chatRoomFetch_dev (b : JsValue) (st : Option (List ChatMessage))
    (hb : coerceMessage b ≠ "") :
    chatRoomFetch "POST" (some b) AIEnv.missing st =
      ⟨200,
        JsValue.obj [("reply",
          JsValue.str ("DEV MODE (no Workers AI). You said: " ++ coerceMessage b))],
        some ("DEV MODE (no Workers AI). You said: " ++ coerceMessage b),
        some (evictStep (st.getD []) ⟨Role.user, coerceMessage b⟩
          ⟨Role.assistant, "DEV MODE (no Workers AI). You said: " ++ coerceMessage b⟩),
        some (evictStep (st.getD []) ⟨Role.user, coerceMessage b⟩
          ⟨Role.assistant, "DEV MODE (no Workers AI). You said: " ++ coerceMessage b⟩),
        true, false,
        some (⟨Role.system, SYSTEM_PROMPT⟩ ::
          evict (st.getD [] ++ [⟨Role.user, coerceMessage b⟩]))⟩ := by
  unfold chatRoomFetch evictStep
  rw [if_neg (by simp)]
  simp [hb]

/-- The inference-failure branch (`index.ts:259-264`). -/
theorem chatRoomFetch_throws (b : JsValue) (err : String)
    (st : Option (List ChatMessage)) (hb : coerceMessage b ≠ "") :
    chatRoomFetch "POST" (some b) (AIEnv.throws err) st =
      ⟨502, JsValue.obj [("error", JsValue.str "Workers AI call failed"),
          ("details", JsValue.str err)],
        none, none, st, true, true,
        some (⟨Role.system, SYSTEM_PROMPT⟩ ::
          evict (st.getD [] ++ [⟨Role.user, coerceMessage b⟩]))⟩ := by
  unfold chatRoomFetch
  rw [if_neg (by simp)]
  simp [hb]

/-- The empty-reply branch (`index.ts:266-272`). -/
theorem chatRoomFetch_empty (b v : JsValue) (st : Option (List ChatMessage))
    (hb : coerceMessage b ≠ "") (hr : coerceResponse v = "") :
    chatRoomFetch "POST" (some b) (AIEnv.result v) st =
      ⟨502, JsValue.obj [("error", JsValue.str "Empty AI response"),
          ("aiResult", v)],
        none, none, st, true, true,
        some (⟨Role.system, SYSTEM_PROMPT⟩ ::
          evict (st.getD [] ++ [⟨Role.user, coerceMessage b⟩]))⟩ := by
  unfold chatRoomFetch
  rw [if_neg (by simp)]
  simp [hb, hr]

/-- The successful-inference branch (`index.ts:275-280`). -/
theorem chatRoomFetch_ai_ok (b v : JsValue) (st : Option (List ChatMessage))
    (hb : coerceMessage b ≠ "") (hr : coerceResponse v ≠ "") :
    chatRoomFetch "POST" (some b) (AIEnv.result v) st =
      ⟨200, JsValue.obj [("reply", JsValue.str (coerceResponse v))],
        some (coerceResponse v),
        some (evictStep (st.getD []) ⟨Role.user, coerceMessage b⟩
          ⟨Role.assistant, coerceResponse v⟩),
        some (evictStep (st.getD []) ⟨Role.user, coerceMessage b⟩
          ⟨Role.assistant, coerceResponse v⟩),
        true, true,
        some (⟨Role.system, SYSTEM_PROMPT⟩ ::
          evict (st.getD [] ++ [⟨Role.user, coerceMessage b⟩]))⟩ := by
  unfold chatRoomFetch evictStep
  rw [if_neg (by simp)]
  simp [hb, hr]

/-- On any request that produces a reply, the value written to storage is the
prior history with the user turn and the reply appended, evicting from the
front after each append. -/
theorem chatRoom_success_inv (b : JsValue) (ai : AIEnv)
    (st : Option (List ChatMessage)) (R : String)
    (h : (chatRoomFetch "POST" (some b) ai st).reply = some R) :
    (chatRoomFetch "POST" (some b) ai st).written =
      some (evictStep (st.getD []) ⟨Role.user, coerceMessage b⟩
        ⟨Role.assistant, R⟩) := by
  by_cases hb : coerceMessage b = ""
  · rw [chatRoomFetch_blank b ai st hb] at h
    simp at h
  · cases ai with
    | missing =>
      rw [chatRoomFetch_dev b st hb] at h ⊢
      simp only [Option.some.injEq] at h
      simp [← h]
    | throws err =>
      rw [chatRoomFetch_throws b err st hb] at h
      simp at h
    | result v =>
      by_cases hr : coerceResponse v = ""
      · rw [chatRoomFetch_empty b v st hb hr] at h
        simp at h
      · rw [chatRoomFetch_ai_ok b v st hb hr] at h ⊢
        simp only [Option.some.injEq] at h
        simp [← h]

/-- Eviction only removes entries. -/
theorem mem_evict (msg : ChatMessage) (l : List ChatMessage)
    (h : msg ∈ evict l) : msg ∈ l := by
  rw [evict_eq_drop] at h
  exact List.drop_subset _ _ h

/-- Membership in the result of the two append-evict steps. -/
theorem mem_evictStep (msg : ChatMessage) (h0 : List ChatMessage)
    (u a : ChatMessage) (h : msg ∈ evictStep h0 u a) :
    msg ∈ h0 ∨ msg = u ∨ msg = a := by
  unfold evictStep at h
  have h1 := mem_evict _ _ h
  rw [List.mem_append] at h1
  cases h1 with
  | inl h2 =>
    have h3 := mem_evict _ _ h2
    rw [List.mem_append] at h3
    cases h3 with
    | inl h4 => exact Or.inl h4
    | inr h4 => exact Or.inr (Or.inl (List.mem_singleton.mp h4))
  | inr h2 => exact Or.inr (Or.inr (List.mem_singleton.mp h2))

/-- A role other than `system` is `user` or `assistant`. -/
theorem role_not_system (r : Role) (h : r ≠ Role.system) :
    r = Role.user ∨ r = Role.assistant := by
  cases r <;> simp_all

/-- C1: for every initial persisted history and every request handled by
`ChatRoom.fetch`, any history written to durable storage has length at most
`MAX_HISTORY` (20); the written value arises by appending the user turn and
then the assistant turn with an eviction after each append, and the eviction
loop is front-eviction (it drops exactly the oldest entries). -/
theorem chatRoom_written_history_bounded (method : String)
    (body : Option JsValue) (ai : AIEnv) (st : Option (List ChatMessage))
    (h' : List ChatMessage)
    (hw : (chatRoomFetch method body ai st).written = some h') :
    h'.length ≤ MAX_HISTORY ∧
    (∃ u a, u.role = Role.user ∧ a.role = Role.assistant ∧
      h' = evict (evict (st.getD [] ++ [u]) ++ [a])) ∧
    (∀ l : List ChatMessage, evict l = l.drop (l.length - MAX_HISTORY)) := by
  by_cases hm : method = "POST"
  · subst hm
    cases body with
    | none =>
      rw [chatRoomFetch_invalid_json] at hw
      simp at hw
    | some b =>
      by_cases hb : coerceMessage b = ""
      · rw [chatRoomFetch_blank b ai st hb] at hw
        simp at hw
      · cases ai with
        | missing =>
          rw [chatRoomFetch_dev b st hb] at hw
          simp only [Option.some.injEq] at hw
          subst hw
          exact ⟨length_evict_le _,
            ⟨⟨Role.user, coerceMessage b⟩, ⟨Role.assistant, _⟩, rfl, rfl, rfl⟩,
            fun l => evict_eq_drop l⟩
        | throws err =>
          rw [chatRoomFetch_throws b err st hb] at hw
          simp at hw
        | result v =>
          by_cases hr : coerceResponse v = ""
          · rw [chatRoomFetch_empty b v st hb hr] at hw
            simp at hw
          · rw [chatRoomFetch_ai_ok b v st hb hr] at hw
            simp only [Option.some.injEq] at hw
            subst hw
            exact ⟨length_evict_le _,
              ⟨⟨Role.user, coerceMessage b⟩, ⟨Role.assistant, _⟩, rfl, rfl, rfl⟩,
              fun l => evict_eq_drop l⟩
  · rw [chatRoomFetch_not_post method body ai st hm] at hw
    simp at hw

/-- Witness for `chatRoom_written_history_bounded` at a concrete request. -/
theorem chatRoom_written_history_bounded_witness :
    ([⟨Role.user, "hi"⟩,
      ⟨Role.assistant, "DEV MODE (no Workers AI). You said: hi"⟩] :
        List ChatMessage).length ≤ MAX_HISTORY ∧
    (∃ u a, u.role = Role.user ∧ a.role = Role.assistant ∧
      ([⟨Role.user, "hi"⟩,
        ⟨Role.assistant, "DEV MODE (no Workers AI). You said: hi"⟩] :
          List ChatMessage) =
        evict (evict ((none : Option (List ChatMessage)).getD [] ++ [u]) ++ [a])) ∧
    (∀ l : List ChatMessage, evict l = l.drop (l.length - MAX_HISTORY)) :=
  chatRoom_written_history_bounded "POST"
    (some (JsValue.obj [("message", JsValue.str "hi")])) AIEnv.missing none
    [⟨Role.user, "hi"⟩,
      ⟨Role.assistant, "DEV MODE (no Workers AI). You said: hi"⟩] rfl

/-- C2: `ChatRoom.fetch` never writes a `system`-role message to persisted
history (assuming, inductively, that the prior history has none): every
persisted entry is a `user` or `assistant` turn, and the system priming
message is only prepended to the `messages` list built for the inference
call, at its head. -/
theorem chatRoom_no_system_persisted (method : String) (body : Option JsValue)
    (ai : AIEnv) (st : Option (List ChatMessage))
    (hclean : ∀ msg ∈ st.getD [], msg.role ≠ Role.system) :
    (∀ h', (chatRoomFetch method body ai st).written = some h' →
      ∀ msg ∈ h', msg.role = Role.user ∨ msg.role = Role.assistant) ∧
    (∀ msgs, (chatRoomFetch method body ai st).messages = some msgs →
      msgs.head? = some ⟨Role.system, SYSTEM_PROMPT⟩ ∧
      ∀ msg ∈ msgs.tail, msg.role ≠ Role.system) := by
  have hwrit : ∀ u a h', u.role = Role.user → a.role = Role.assistant →
      h' = evictStep (st.getD []) u a →
      ∀ msg ∈ h', msg.role = Role.user ∨ msg.role = Role.assistant := by
    intro u a h' hu ha hh msg hmsg
    rw [hh] at hmsg
    rcases mem_evictStep msg _ u a hmsg with h | h | h
    · exact role_not_system _ (hclean msg h)
    · rw [h, hu]
      exact Or.inl rfl
    · rw [h, ha]
      exact Or.inr rfl
  have hmsgs : ∀ u, u.role = Role.user →
      ∀ msg ∈ evict (st.getD [] ++ [u]), msg.role ≠ Role.system := by
    intro u hu msg hmsg
    have h1 := mem_evict _ _ hmsg
    rw [List.mem_append] at h1
    cases h1 with
    | inl h2 => exact hclean msg h2
    | inr h2 =>
      rw [List.mem_singleton.mp h2, hu]
      simp
  by_cases hm : method = "POST"
  · subst hm
    cases body with
    | none =>
      rw [chatRoomFetch_invalid_json]
      exact ⟨by simp, by simp⟩
    | some b =>
      by_cases hb : coerceMessage b = ""
      · rw [chatRoomFetch_blank b ai st hb]
        exact ⟨by simp, by simp⟩
      · cases ai with
        | missing =>
          rw [chatRoomFetch_dev b st hb]
          constructor
          · intro h' hh
            simp only [Option.some.injEq] at hh
            exact hwrit _ _ h' rfl rfl hh.symm
          · intro msgs hh
            simp only [Option.some.injEq] at hh
            subst hh
            exact ⟨rfl, hmsgs _ rfl⟩
        | throws err =>
          rw [chatRoomFetch_throws b err st hb]
          constructor
          · intro h' hh
            simp at hh
          · intro msgs hh
            simp only [Option.some.injEq] at hh
            subst hh
            exact ⟨rfl, hmsgs _ rfl⟩
        | result v =>
          by_cases hr : coerceResponse v = ""
          · rw [chatRoomFetch_empty b v st hb hr]
            constructor
            · intro h' hh
              simp at hh
            · intro msgs hh
              simp only [Option.some.injEq] at hh
              subst hh
              exact ⟨rfl, hmsgs _ rfl⟩
          · rw [chatRoomFetch_ai_ok b v st hb hr]
            constructor
            · intro h' hh
              simp only [Option.some.injEq] at hh
              exact hwrit _ _ h' rfl rfl hh.symm
            · intro msgs hh
              simp only [Option.some.injEq] at hh
              subst hh
              exact ⟨rfl, hmsgs _ rfl⟩
  · rw [chatRoomFetch_not_post method body ai st hm]
    exact ⟨by simp, by simp⟩

/-- Witness for `chatRoom_no_system_persisted` at a concrete request. -/
theorem chatRoom_no_system_persisted_witness :
    (∀ h', (chatRoomFetch "POST"
        (some (JsValue.obj [("message", JsValue.str "hi")])) AIEnv.missing
        none).written = some h' →
      ∀ msg ∈ h', msg.role = Role.user ∨ msg.role = Role.assistant) ∧
    (∀ msgs, (chatRoomFetch "POST"
        (some (JsValue.obj [("message", JsValue.str "hi")])) AIEnv.missing
        none).messages = some msgs →
      msgs.head? = some ⟨Role.system, SYSTEM_PROMPT⟩ ∧
      ∀ msg ∈ msgs.tail, msg.role ≠ Role.system) :=
  chatRoom_no_system_persisted "POST"
    (some (JsValue.obj [("message", JsValue.str "hi")])) AIEnv.missing none
    (by simp)

/-- C3: on every response other than the 200 success path, `ChatRoom.fetch`
performs no storage write and the persisted history is unchanged. -/
theorem chatRoom_errors_preserve_storage (method : String)
    (body : Option JsValue) (ai : AIEnv) (st : Option (List ChatMessage))
    (h : (chatRoomFetch method body ai st).status ≠ 200) :
    (chatRoomFetch method body ai st).written = none ∧
    (chatRoomFetch method body ai st).storageAfter = st := by
  by_cases hm : method = "POST"
  · subst hm
    cases body with
    | none =>
      rw [chatRoomFetch_invalid_json]
      exact ⟨rfl, rfl⟩
    | some b =>
      by_cases hb : coerceMessage b = ""
      · rw [chatRoomFetch_blank b ai st hb]
        exact ⟨rfl, rfl⟩
      · cases ai with
        | missing =>
          rw [chatRoomFetch_dev b st hb] at h
          simp at h
        | throws err =>
          rw [chatRoomFetch_throws b err st hb]
          exact ⟨rfl, rfl⟩
        | result v =>
          by_cases hr : coerceResponse v = ""
          · rw [chatRoomFetch_empty b v st hb hr]
            exact ⟨rfl, rfl⟩
          · rw [chatRoomFetch_ai_ok b v st hb hr] at h
            simp at h
  · rw [chatRoomFetch_not_post method body ai st hm]
    exact ⟨rfl, rfl⟩

/-- Witness for `chatRoom_errors_preserve_storage` at a concrete request. -/
theorem chatRoom_errors_preserve_storage_witness :
    (chatRoomFetch "GET" none AIEnv.missing
      (some [⟨Role.user, "old"⟩])).written = none ∧
    (chatRoomFetch "GET" none AIEnv.missing
      (some [⟨Role.user, "old"⟩])).storageAfter = some [⟨Role.user, "old"⟩] :=
  chatRoom_errors_preserve_storage "GET" none AIEnv.missing
    (some [⟨Role.user, "old"⟩]) (by decide)

/-- C6: with no AI binding configured, a valid POST /chat request makes no
inference call and returns 200 with the deterministic development reply,
which contains the (trimmed) input message. -/
theorem chatRoom_dev_mode_reply (b : JsValue) (st : Option (List ChatMessage))
    (hb : coerceMessage b ≠ "") :
    (chatRoomFetch "POST" (some b) AIEnv.missing st).status = 200 ∧
    (chatRoomFetch "POST" (some b) AIEnv.missing st).aiCalled = false ∧
    (chatRoomFetch "POST" (some b) AIEnv.missing st).reply =
      some ("DEV MODE (no Workers AI). You said: " ++ coerceMessage b) ∧
    (coerceMessage b).data <:+:
      ("DEV MODE (no Workers AI). You said: " ++ coerceMessage b).data := by
  rw [chatRoomFetch_dev b st hb]
  exact ⟨rfl, rfl, rfl,
    ⟨"DEV MODE (no Workers AI). You said: ".data, [], by simp⟩⟩

/-- Witness for `chatRoom_dev_mode_reply` at a concrete request. -/
theorem chatRoom_dev_mode_reply_witness :
    (chatRoomFetch "POST" (some (JsValue.obj [("message", JsValue.str "hi")]))
      AIEnv.missing none).status = 200 ∧
    (chatRoomFetch "POST" (some (JsValue.obj [("message", JsValue.str "hi")]))
      AIEnv.missing none).aiCalled = false ∧
    (chatRoomFetch "POST" (some (JsValue.obj [("message", JsValue.str "hi")]))
      AIEnv.missing none).reply =
      some ("DEV MODE (no Workers AI). You said: " ++
        coerceMessage (JsValue.obj [("message", JsValue.str "hi")])) ∧
    (coerceMessage (JsValue.obj [("message", JsValue.str "hi")])).data <:+:
      ("DEV MODE (no Workers AI). You said: " ++
        coerceMessage (JsValue.obj [("message", JsValue.str "hi")])).data :=
  chatRoom_dev_mode_reply (JsValue.obj [("message", JsValue.str "hi")]) none
    (by decide)

/-- C7: with the AI binding configured, a throwing inference call yields 502
with a `Workers AI call failed` error carrying the failure details, and a
blank reply yields 502 with an `Empty AI response` error carrying the raw
inference result. -/
theorem chatRoom_inference_errors (b v : JsValue) (err : String)
    (st : Option (List ChatMessage)) (hb : coerceMessage b ≠ "")
    (hr : coerceResponse v = "") :
    ((chatRoomFetch "POST" (some b) (AIEnv.throws err) st).status = 502 ∧
      (chatRoomFetch "POST" (some b) (AIEnv.throws err) st).body =
        JsValue.obj [("error", JsValue.str "Workers AI call failed"),
          ("details", JsValue.str err)]) ∧
    ((chatRoomFetch "POST" (some b) (AIEnv.result v) st).status = 502 ∧
      (chatRoomFetch "POST" (some b) (AIEnv.result v) st).body =
        JsValue.obj [("error", JsValue.str "Empty AI response"),
          ("aiResult", v)]) := by
  rw [chatRoomFetch_throws b err st hb, chatRoomFetch_empty b v st hb hr]
  exact ⟨⟨rfl, rfl⟩, ⟨rfl, rfl⟩⟩

/-- Witness for `chatRoom_inference_errors` at a concrete request. -/
theorem chatRoom_inference_errors_witness :
    ((chatRoomFetch "POST" (some (JsValue.obj [("message", JsValue.str "hi")]))
        (AIEnv.throws "boom") none).status = 502 ∧
      (chatRoomFetch "POST" (some (JsValue.obj [("message", JsValue.str "hi")]))
        (AIEnv.throws "boom") none).body =
        JsValue.obj [("error", JsValue.str "Workers AI call failed"),
          ("details", JsValue.str "boom")]) ∧
    ((chatRoomFetch "POST" (some (JsValue.obj [("message", JsValue.str "hi")]))
        (AIEnv.result (JsValue.obj [("response", JsValue.str "  ")]))
        none).status = 502 ∧
      (chatRoomFetch "POST" (some (JsValue.obj [("message", JsValue.str "hi")]))
        (AIEnv.result (JsValue.obj [("response", JsValue.str "  ")]))
        none).body =
        JsValue.obj [("error", JsValue.str "Empty AI response"),
          ("aiResult", JsValue.obj [("response", JsValue.str "  ")])]) :=
  chatRoom_inference_errors (JsValue.obj [("message", JsValue.str "hi")])
    (JsValue.obj [("response", JsValue.str "  ")]) "boom" none
    (by decide) (by decide)

/-- C8: after two successive successful exchanges (messages `b1` then `b2`,
replies `R1` then `R2`), the persisted history ends with the four entries
`user:M1, assistant:R1, user:M2, assistant:R2` in order, and consists of the
previous entries (with the oldest dropped) followed by those four. -/
theorem chatRoom_two_exchanges (st : Option (List ChatMessage))
    (b1 b2 : JsValue) (ai1 ai2 : AIEnv) (R1 R2 : String)
    (h1 h2 : List ChatMessage)
    (hr1 : (chatRoomFetch "POST" (some b1) ai1 st).reply = some R1)
    (hw1 : (chatRoomFetch "POST" (some b1) ai1 st).written = some h1)
    (hr2 : (chatRoomFetch "POST" (some b2) ai2 (some h1)).reply = some R2)
    (hw2 : (chatRoomFetch "POST" (some b2) ai2 (some h1)).written = some h2) :
    [⟨Role.user, coerceMessage b1⟩, ⟨Role.assistant, R1⟩,
      ⟨Role.user, coerceMessage b2⟩, ⟨Role.assistant, R2⟩] <:+ h2 ∧
    h2 <:+ (st.getD [] ++
      [⟨Role.user, coerceMessage b1⟩, ⟨Role.assistant, R1⟩,
        ⟨Role.user, coerceMessage b2⟩, ⟨Role.assistant, R2⟩]) := by
  have e1 := chatRoom_success_inv b1 ai1 st R1 hr1
  rw [hw1] at e1
  have h1eq := Option.some.inj e1
  have e2 := chatRoom_success_inv b2 ai2 (some h1) R2 hr2
  rw [hw2] at e2
  have h2eq := Option.some.inj e2
  simp only [Option.getD_some] at h2eq
  rw [evictStep_eq] at h1eq
  rw [evictStep_eq] at h2eq
  rw [h1eq] at h2eq
  have hK : dropCount (((st.getD []).drop (dropCount (st.getD []).length) ++
        ([⟨Role.user, coerceMessage b1⟩, ⟨Role.assistant, R1⟩] :
          List ChatMessage)).length) ≤
      ((st.getD []).drop (dropCount (st.getD []).length)).length := by
    have hd := dropCount_le_sub_two
      (((st.getD []).drop (dropCount (st.getD []).length) ++
        ([⟨Role.user, coerceMessage b1⟩, ⟨Role.assistant, R1⟩] :
          List ChatMessage)).length)
      (by simp)
    simp only [List.length_append, List.length_cons, List.length_nil] at hd ⊢
    omega
  rw [List.drop_append_of_le_length hK, List.drop_drop] at h2eq
  constructor
  · refine ⟨List.drop (dropCount (st.getD []).length +
      dropCount (((st.getD []).drop (dropCount (st.getD []).length) ++
        ([⟨Role.user, coerceMessage b1⟩, ⟨Role.assistant, R1⟩] :
          List ChatMessage)).length)) (st.getD []), ?_⟩
    rw [h2eq]
    simp
  · refine ⟨(st.getD []).take (dropCount (st.getD []).length +
      dropCount (((st.getD []).drop (dropCount (st.getD []).length) ++
        ([⟨Role.user, coerceMessage b1⟩, ⟨Role.assistant, R1⟩] :
          List ChatMessage)).length)), ?_⟩
    rw [h2eq, ← List.append_assoc, ← List.append_assoc, List.take_append_drop]
    simp

/-- Witness for `chatRoom_two_exchanges` at two concrete exchanges. -/
theorem chatRoom_two_exchanges_witness :
    [⟨Role.user, "a"⟩,
      ⟨Role.assistant, "DEV MODE (no Workers AI). You said: a"⟩,
      ⟨Role.user, "b"⟩,
      ⟨Role.assistant, "DEV MODE (no Workers AI). You said: b"⟩] <:+
      ([⟨Role.user, "a"⟩,
        ⟨Role.assistant, "DEV MODE (no Workers AI). You said: a"⟩,
        ⟨Role.user, "b"⟩,
        ⟨Role.assistant, "DEV MODE (no Workers AI). You said: b"⟩] :
          List ChatMessage) ∧
    ([⟨Role.user, "a"⟩,
      ⟨Role.assistant, "DEV MODE (no Workers AI). You said: a"⟩,
      ⟨Role.user, "b"⟩,
      ⟨Role.assistant, "DEV MODE (no Workers AI). You said: b"⟩] :
        List ChatMessage) <:+
      ((none : Option (List ChatMessage)).getD [] ++
        [⟨Role.user, coerceMessage (JsValue.obj [("message", JsValue.str "a")])⟩,
          ⟨Role.assistant, "DEV MODE (no Workers AI). You said: a"⟩,
          ⟨Role.user, coerceMessage (JsValue.obj [("message", JsValue.str "b")])⟩,
          ⟨Role.assistant, "DEV MODE (no Workers AI). You said: b"⟩]) := by
  have h := chatRoom_two_exchanges none
    (JsValue.obj [("message", JsValue.str "a")])
    (JsValue.obj [("message", JsValue.str "b")])
    AIEnv.missing AIEnv.missing
    "DEV MODE (no Workers AI). You said: a"
    "DEV MODE (no Workers AI). You said: b"
    [⟨Role.user, "a"⟩,
      ⟨Role.assistant, "DEV MODE (no Workers AI). You said: a"⟩]
    [⟨Role.user, "a"⟩,
      ⟨Role.assistant, "DEV MODE (no Workers AI). You said: a"⟩,
      ⟨Role.user, "b"⟩,
      ⟨Role.assistant, "DEV MODE (no Workers AI). You said: b"⟩]
    rfl rfl rfl rfl
  exact ⟨h.1, by simpa using h.2⟩

/-- C9: a non-string `message` value is coerced with `toString()` rather than
rejected: `{"message": 5}` coerces to `"5"`; `ChatRoom.fetch` answers 400
exactly when the coerced, trimmed message is empty; and the router forwards
the request to the durable object exactly when it is nonempty. -/
theorem message_coerced_not_type_checked (b : JsValue) (ai : AIEnv)
    (st : Option (List ChatMessage)) (secure : Bool) (uuid : String)
    (stub : StubOutcome) :
    coerceMessage (JsValue.obj [("message", JsValue.num 5)]) = "5" ∧
    ((chatRoomFetch "POST" (some b) ai st).status = 400 ↔
      coerceMessage b = "") ∧
    (workerFetch "POST" "/api/chat" none secure uuid (some b) stub).toOption.map
      RouterOutcome.doCalled = some (!(coerceMessage b == "")) := by
  refine ⟨by decide, ⟨?_, ?_⟩, ?_⟩
  · intro h
    by_contra hb
    cases ai with
    | missing =>
      rw [chatRoomFetch_dev b st hb] at h
      simp at h
    | throws err =>
      rw [chatRoomFetch_throws b err st hb] at h
      simp at h
    | result v =>
      by_cases hr : coerceResponse v = ""
      · rw [chatRoomFetch_empty b v st hb hr] at h
        simp at h
      · rw [chatRoomFetch_ai_ok b v st hb hr] at h
        simp at h
  · intro hb
    rw [chatRoomFetch_blank b ai st hb]
  · by_cases hb : coerceMessage b = ""
    · simp [workerFetch, getCookie, hb, Except.toOption]
    · cases stub with
      | throws err => simp [workerFetch, getCookie, hb, Except.toOption]
      | response stt ct raw parsed =>
        by_cases hct : strIncludes ct "application/json"
        · cases parsed with
          | none => simp [workerFetch, getCookie, hb, hct, Except.toOption]
          | some p =>
            by_cases hok : 200 ≤ stt ∧ stt ≤ 299
            · simp [workerFetch, getCookie, hb, hct, hok, Except.toOption]
            · simp [workerFetch, getCookie, hb, hct, hok, Except.toOption]
        · simp [workerFetch, getCookie, hb, hct, Except.toOption]

/-- C4 counterexample: a POST /api/chat request with a malformed `session`
cookie value and an invalid JSON body does not get a 400 response: the router
evaluates `getCookie` (`index.ts:145`) before parsing the body, and
`decodeURIComponent` (`index.ts:19`) throws `URIError` on the value `%`, so
the uncaught exception escapes before body validation ever runs. -/
theorem invalid_message_rejected_early_counterexample :
    workerFetch "POST" "/api/chat" (some "session=%") false "u1" none
        (StubOutcome.throws "unreachable") =
      Except.error "URIError: URI malformed" ∧
    Except.error "URIError: URI malformed" ≠
      (Except.ok ⟨400, none, false⟩ : Except String RouterOutcome) :=
  ⟨rfl, by simp⟩

/-- C4 (amended): provided the session-cookie lookup itself does not throw
(`getCookie` succeeds, i.e. the `session` cookie is absent or its value
percent-decodes without error), an unparsable body or a missing/blank message
is rejected with 400 before the router contacts the durable object (hence
before any storage or inference activity), and the repeated validation in
`ChatRoom.fetch` likewise answers 400 before its storage read and before any
inference call. -/
theorem invalid_message_rejected_early (ch : Option String) (secure : Bool)
    (uuid : String) (body : Option JsValue) (stub : StubOutcome) (ai : AIEnv)
    (st : Option (List ChatMessage)) (sid : Option String)
    (hc : getCookie ch "session" = Except.ok sid)
    (hbad : body = none ∨ ∃ b, body = some b ∧ coerceMessage b = "") :
    workerFetch "POST" "/api/chat" ch secure uuid body stub =
      Except.ok ⟨400, none, false⟩ ∧
    (chatRoomFetch "POST" body ai st).status = 400 ∧
    (chatRoomFetch "POST" body ai st).storageRead = false ∧
    (chatRoomFetch "POST" body ai st).aiCalled = false := by
  rcases hbad with h | ⟨b, hbody, hb⟩
  · subst h
    refine ⟨by simp [workerFetch, hc], ?_, ?_, ?_⟩ <;>
      rw [chatRoomFetch_invalid_json]
  · subst hbody
    refine ⟨by simp [workerFetch, hc, hb], ?_, ?_, ?_⟩ <;>
      rw [chatRoomFetch_blank b ai st hb]

/-- Witness for `invalid_message_rejected_early` at a concrete request. -/
theorem invalid_message_rejected_early_witness :
    workerFetch "POST" "/api/chat" none false "u1"
      (some (JsValue.obj [("message", JsValue.str "  ")]))
      (StubOutcome.throws "unreachable") = Except.ok ⟨400, none, false⟩ ∧
    (chatRoomFetch "POST" (some (JsValue.obj [("message", JsValue.str "  ")]))
      AIEnv.missing none).status = 400 ∧
    (chatRoomFetch "POST" (some (JsValue.obj [("message", JsValue.str "  ")]))
      AIEnv.missing none).storageRead = false ∧
    (chatRoomFetch "POST" (some (JsValue.obj [("message", JsValue.str "  ")]))
      AIEnv.missing none).aiCalled = false :=
  invalid_message_rejected_early none false "u1"
    (some (JsValue.obj [("message", JsValue.str "  ")]))
    (StubOutcome.throws "unreachable") AIEnv.missing none none rfl
    (Or.inr ⟨_, rfl, by decide⟩)

/-- C5: when a POST /api/chat request arrives without a session cookie, the
freshly minted session cookie is attached to the response exactly on the 200
success branch; every error response carries no `set-cookie` header. -/
theorem session_cookie_only_on_success (ch : Option String) (secure : Bool)
    (uuid : String) (body : Option JsValue) (stub : StubOutcome)
    (o : RouterOutcome)
    (hc : getCookie ch "session" = Except.ok none)
    (ho : workerFetch "POST" "/api/chat" ch secure uuid body stub =
      Except.ok o) :
    (o.setCookie ≠ none ↔ o.status = 200) ∧
    (o.status = 200 → o.setCookie = some (makeSessionCookie uuid secure)) := by
  cases body with
  | none =>
    simp [workerFetch, hc] at ho
    rw [← ho]
    simp
  | some b =>
    by_cases hb : coerceMessage b = ""
    · simp [workerFetch, hc, hb] at ho
      rw [← ho]
      simp
    · cases stub with
      | throws err =>
        simp [workerFetch, hc, hb] at ho
        rw [← ho]
        simp
      | response stt ct raw parsed =>
        by_cases hct : strIncludes ct "application/json"
        · cases parsed with
          | none =>
            simp [workerFetch, hc, hb, hct] at ho
            rw [← ho]
            simp
          | some p =>
            by_cases hok : 200 ≤ stt ∧ stt ≤ 299
            · simp [workerFetch, hc, hb, hct, hok] at ho
              rw [← ho]
              simp
            · simp [workerFetch, hc, hb, hct, hok] at ho
              rw [← ho]
              simp
              omega
        · simp [workerFetch, hc, hb, hct] at ho
          rw [← ho]
          simp

/-- Witness for `session_cookie_only_on_success` at a concrete request. -/
theorem session_cookie_only_on_success_witness :
    ((⟨200, some (makeSessionCookie "u1" false), true⟩ :
        RouterOutcome).setCookie ≠ none ↔
      (⟨200, some (makeSessionCookie "u1" false), true⟩ :
        RouterOutcome).status = 200) ∧
    ((⟨200, some (makeSessionCookie "u1" false), true⟩ :
        RouterOutcome).status = 200 →
      (⟨200, some (makeSessionCookie "u1" false), true⟩ :
        RouterOutcome).setCookie = some (makeSessionCookie "u1" false)) :=
  session_cookie_only_on_success none false "u1"
    (some (JsValue.obj [("message", JsValue.str "hi")]))
    (StubOutcome.response 200 "application/json" "raw"
      (some (JsValue.obj [("reply", JsValue.str "ok")])))
    ⟨200, some (makeSessionCookie "u1" false), true⟩ rfl rfl


/-! ## Round trip of `decodeURIComponent` over `encodeURIComponent` -/

/-- Unicode scalar values are below `0x110000`. -/
theorem char_toNat_lt (c : Char) : c.toNat < 0x110000 := by
  have h := c.valid
  unfold isValidChar at h
  rcases h with h | ⟨h1, h2⟩
  · have hn : c.val.toNat < (0xd800 : UInt32).toNat := h
    simp only [Char.toNat]
    omega
  · have hn : c.val.toNat < (0x110000 : UInt32).toNat := h2
    simp only [Char.toNat]
    omega

/-- Unicode scalar values are never UTF-16 surrogates. -/
theorem char_not_surrogate (c : Char) :
    c.toNat < 0xD800 ∨ 0xE000 ≤ c.toNat := by
  have h := c.valid
  unfold isValidChar at h
  rcases h with h | ⟨h1, h2⟩
  · have hn : c.val.toNat < (0xd800 : UInt32).toNat := h
    left
    simp only [Char.toNat]
    omega
  · have hn : (0xdfff : UInt32).toNat < c.val.toNat := h1
    right
    simp only [Char.toNat]
    omega

/-- Hex digits decode back to their value. -/
theorem fromHexDigit_toHexDigit (d : Nat) (h : d < 16) :
    fromHexDigit (toHexDigit d) = some d := by
  interval_cases d <;> decide

/-- A literal (non-`%`) character passes through the first decode phase. -/
theorem pctTokens_cons_lit (c : Char) (rest : List Char) (h : c ≠ '%') :
    pctTokens (c :: rest) =
      (pctTokens rest).map (fun ts => PctTok.lit c :: ts) := by
  rw [pctTokens.eq_def]
  simp only []
  rw [if_neg h]

/-- A percent escape decodes back to its byte in the first decode phase. -/
theorem pctTokens_escByte (b : Nat) (hb : b < 256) (rest : List Char) :
    pctTokens (escByte b ++ rest) =
      (pctTokens rest).map (fun ts => PctTok.byte b :: ts) := by
  have hd1 : b / 16 < 16 := by omega
  have hd2 : b % 16 < 16 := by omega
  have hv : 16 * (b / 16) + b % 16 = b := by omega
  simp only [escByte, List.cons_append, List.nil_append]
  rw [pctTokens.eq_def]
  simp only [if_true]
  rw [fromHexDigit_toHexDigit _ hd1, fromHexDigit_toHexDigit _ hd2]
  simp only [hv]

/-- UTF-8 bytes are bytes. -/
theorem utf8Bytes_lt (n : Nat) (h : n < 0x110000) :
    ∀ b ∈ utf8Bytes n, b < 256 := by
  intro b hb
  by_cases h1 : n < 0x80
  · simp [utf8Bytes, h1] at hb
    omega
  · by_cases h2 : n < 0x800
    · simp [utf8Bytes, h1, h2] at hb
      rcases hb with hb | hb <;> omega
    · by_cases h3 : n < 0x10000
      · simp [utf8Bytes, h1, h2, h3] at hb
        rcases hb with hb | hb | hb <;> omega
      · simp [utf8Bytes, h1, h2, h3] at hb
        rcases hb with hb | hb | hb | hb <;> omega

/-- A sequence of percent escapes decodes back to its byte list in the first
decode phase. -/
theorem pctTokens_escBytes (bs : List Nat) (hbs : ∀ b ∈ bs, b < 256)
    (rest : List Char) :
    pctTokens (bs.flatMap escByte ++ rest) =
      (pctTokens rest).map (fun ts => bs.map PctTok.byte ++ ts) := by
  induction bs with
  | nil =>
    simp only [List.flatMap_nil, List.nil_append, List.map_nil]
    cases pctTokens rest <;> simp
  | cons b bs ih =>
    simp only [List.flatMap_cons, List.append_assoc]
    rw [pctTokens_escByte b (hbs b (by simp)) _,
      ih (fun x hx => hbs x (by simp [hx]))]
    cases pctTokens rest <;> simp

/-- The first decode phase inverts the encoding of one character. -/
theorem pctTokens_encodeChar (c : Char) (rest : List Char) :
    pctTokens (encodeChar c ++ rest) =
      (pctTokens rest).map (fun ts => tokensOf c ++ ts) := by
  by_cases hu : uriUnreserved c
  · have hc : c ≠ '%' := by
      intro h
      rw [h] at hu
      exact absurd hu (by decide)
    simp only [encodeChar, tokensOf, if_pos hu, List.cons_append,
      List.nil_append]
    rw [pctTokens_cons_lit c rest hc]
  · simp only [encodeChar, tokensOf, if_neg hu]
    exact pctTokens_escBytes _ (utf8Bytes_lt _ (char_toNat_lt c)) rest

/-- The first decode phase inverts the whole encoding. -/
theorem pctTokens_encode (l : List Char) :
    pctTokens (l.flatMap encodeChar) = some (l.flatMap tokensOf) := by
  induction l with
  | nil => rfl
  | cons c cs ih =>
    simp only [List.flatMap_cons]
    rw [pctTokens_encodeChar, ih]
    rfl

/-- Second decode phase, one-byte (ASCII) sequence. -/
theorem toksDecode_one (n : Nat) (h : n < 0x80) (rest : List PctTok) :
    toksDecode (PctTok.byte n :: rest) =
      (toksDecode rest).map (fun cs => Char.ofNat n :: cs) := by
  rw [toksDecode.eq_def]
  simp only []
  rw [if_pos h]

/-- Second decode phase, two-byte sequence. -/
theorem toksDecode_two (n : Nat) (hlo : 0x80 ≤ n) (hhi : n < 0x800)
    (rest : List PctTok) :
    toksDecode (PctTok.byte (0xC0 + n / 64) ::
        PctTok.byte (0x80 + n % 64) :: rest) =
      (toksDecode rest).map (fun cs => Char.ofNat n :: cs) := by
  have h1 : ¬(0xC0 + n / 64 < 0x80) := by omega
  have h2 : ¬(0xC0 + n / 64 < 0xC0) := by omega
  have h3 : 0xC0 + n / 64 < 0xE0 := by omega
  have h4 : contByte (0x80 + n % 64) = true := by
    simp only [contByte, decide_eq_true_eq]
    omega
  have hv : (0xC0 + n / 64 - 0xC0) * 64 + (0x80 + n % 64 - 0x80) = n := by
    omega
  have h5 : 0x80 ≤ (0xC0 + n / 64 - 0xC0) * 64 + (0x80 + n % 64 - 0x80) ∧
      ((0xC0 + n / 64 - 0xC0) * 64 + (0x80 + n % 64 - 0x80) < 0xD800 ∨
        0xE000 ≤ (0xC0 + n / 64 - 0xC0) * 64 + (0x80 + n % 64 - 0x80)) ∧
      (0xC0 + n / 64 - 0xC0) * 64 + (0x80 + n % 64 - 0x80) ≤ 0x10FFFF := by
    omega
  rw [toksDecode.eq_def]
  simp only []
  rw [if_neg h1, if_neg h2, if_pos h3]
  rw [utf8Cont1.eq_def]
  simp only []
  rw [if_pos h4, if_pos h5, hv]

/-- Second decode phase, three-byte sequence. -/
theorem toksDecode_three (n : Nat) (hlo : 0x800 ≤ n) (hhi : n < 0x10000)
    (hns : n < 0xD800 ∨ 0xE000 ≤ n) (rest : List PctTok) :
    toksDecode (PctTok.byte (0xE0 + n / 4096) ::
        PctTok.byte (0x80 + n / 64 % 64) ::
        PctTok.byte (0x80 + n % 64) :: rest) =
      (toksDecode rest).map (fun cs => Char.ofNat n :: cs) := by
  have h1 : ¬(0xE0 + n / 4096 < 0x80) := by omega
  have h2 : ¬(0xE0 + n / 4096 < 0xC0) := by omega
  have h3 : ¬(0xE0 + n / 4096 < 0xE0) := by omega
  have h4 : 0xE0 + n / 4096 < 0xF0 := by omega
  have h5 : contByte (0x80 + n / 64 % 64) = true := by
    simp only [contByte, decide_eq_true_eq]
    omega
  have h6 : contByte (0x80 + n % 64) = true := by
    simp only [contByte, decide_eq_true_eq]
    omega
  have hv : ((0xE0 + n / 4096 - 0xE0) * 64 + (0x80 + n / 64 % 64 - 0x80)) * 64 +
      (0x80 + n % 64 - 0x80) = n := by
    omega
  have h7 : 0x800 ≤ ((0xE0 + n / 4096 - 0xE0) * 64 +
        (0x80 + n / 64 % 64 - 0x80)) * 64 + (0x80 + n % 64 - 0x80) ∧
      (((0xE0 + n / 4096 - 0xE0) * 64 + (0x80 + n / 64 % 64 - 0x80)) * 64 +
          (0x80 + n % 64 - 0x80) < 0xD800 ∨
        0xE000 ≤ ((0xE0 + n / 4096 - 0xE0) * 64 +
          (0x80 + n / 64 % 64 - 0x80)) * 64 + (0x80 + n % 64 - 0x80)) ∧
      ((0xE0 + n / 4096 - 0xE0) * 64 + (0x80 + n / 64 % 64 - 0x80)) * 64 +
        (0x80 + n % 64 - 0x80) ≤ 0x10FFFF := by
    rcases hns with hns | hns <;> omega
  rw [toksDecode.eq_def]
  simp only []
  rw [if_neg h1, if_neg h2, if_neg h3, if_pos h4]
  rw [utf8Cont2.eq_def]
  simp only []
  rw [if_pos h5]
  rw [utf8Cont1.eq_def]
  simp only []
  rw [if_pos h6, if_pos h7, hv]

/-- Second decode phase, four-byte sequence. -/
theorem toksDecode_four (n : Nat) (hlo : 0x10000 ≤ n) (hhi : n < 0x110000)
    (rest : List PctTok) :
    toksDecode (PctTok.byte (0xF0 + n / 262144) ::
        PctTok.byte (0x80 + n / 4096 % 64) ::
        PctTok.byte (0x80 + n / 64 % 64) ::
        PctTok.byte (0x80 + n % 64) :: rest) =
      (toksDecode rest).map (fun cs => Char.ofNat n :: cs) := by
  have h1 : ¬(0xF0 + n / 262144 < 0x80) := by omega
  have h2 : ¬(0xF0 + n / 262144 < 0xC0) := by omega
  have h3 : ¬(0xF0 + n / 262144 < 0xE0) := by omega
  have h4 : ¬(0xF0 + n / 262144 < 0xF0) := by omega
  have h5 : 0xF0 + n / 262144 < 0xF8 := by omega
  have h6 : contByte (0x80 + n / 4096 % 64) = true := by
    simp only [contByte, decide_eq_true_eq]
    omega
  have h7 : contByte (0x80 + n / 64 % 64) = true := by
    simp only [contByte, decide_eq_true_eq]
    omega
  have h8 : contByte (0x80 + n % 64) = true := by
    simp only [contByte, decide_eq_true_eq]
    omega
  have hv : (((0xF0 + n / 262144 - 0xF0) * 64 +
      (0x80 + n / 4096 % 64 - 0x80)) * 64 +
      (0x80 + n / 64 % 64 - 0x80)) * 64 + (0x80 + n % 64 - 0x80) = n := by
    omega
  have h9 : 0x10000 ≤ (((0xF0 + n / 262144 - 0xF0) * 64 +
        (0x80 + n / 4096 % 64 - 0x80)) * 64 +
        (0x80 + n / 64 % 64 - 0x80)) * 64 + (0x80 + n % 64 - 0x80) ∧
      ((((0xF0 + n / 262144 - 0xF0) * 64 +
          (0x80 + n / 4096 % 64 - 0x80)) * 64 +
          (0x80 + n / 64 % 64 - 0x80)) * 64 + (0x80 + n % 64 - 0x80) < 0xD800 ∨
        0xE000 ≤ (((0xF0 + n / 262144 - 0xF0) * 64 +
          (0x80 + n / 4096 % 64 - 0x80)) * 64 +
          (0x80 + n / 64 % 64 - 0x80)) * 64 + (0x80 + n % 64 - 0x80)) ∧
      (((0xF0 + n / 262144 - 0xF0) * 64 +
        (0x80 + n / 4096 % 64 - 0x80)) * 64 +
        (0x80 + n / 64 % 64 - 0x80)) * 64 + (0x80 + n % 64 - 0x80) ≤
        0x10FFFF := by
    omega
  rw [toksDecode.eq_def]
  simp only []
  rw [if_neg h1, if_neg h2, if_neg h3, if_neg h4, if_pos h5]
  rw [utf8Cont3.eq_def]
  simp only []
  rw [if_pos h6]
  rw [utf8Cont2.eq_def]
  simp only []
  rw [if_pos h7]
  rw [utf8Cont1.eq_def]
  simp only []
  rw [if_pos h8, if_pos h9, hv]

/-- The second decode phase inverts the UTF-8 encoding of one character. -/
theorem toksDecode_utf8 (c : Char) (rest : List PctTok) :
    toksDecode ((utf8Bytes c.toNat).map PctTok.byte ++ rest) =
      (toksDecode rest).map (fun cs => c :: cs) := by
  have hc := char_toNat_lt c
  by_cases h1 : c.toNat < 0x80
  · rw [show utf8Bytes c.toNat = [c.toNat] from by simp [utf8Bytes, h1]]
    simp only [List.map_cons, List.map_nil, List.cons_append, List.nil_append]
    rw [toksDecode_one _ h1, Char.ofNat_toNat]
  · by_cases h2 : c.toNat < 0x800
    · rw [show utf8Bytes c.toNat =
          [0xC0 + c.toNat / 64, 0x80 + c.toNat % 64] from by
        simp [utf8Bytes, h1, h2]]
      simp only [List.map_cons, List.map_nil, List.cons_append,
        List.nil_append]
      rw [toksDecode_two _ (by omega) h2, Char.ofNat_toNat]
    · by_cases h3 : c.toNat < 0x10000
      · rw [show utf8Bytes c.toNat =
            [0xE0 + c.toNat / 4096, 0x80 + c.toNat / 64 % 64,
              0x80 + c.toNat % 64] from by
          simp [utf8Bytes, h1, h2, h3]]
        simp only [List.map_cons, List.map_nil, List.cons_append,
          List.nil_append]
        rw [toksDecode_three _ (by omega) h3 (char_not_surrogate c),
          Char.ofNat_toNat]
      · rw [show utf8Bytes c.toNat =
            [0xF0 + c.toNat / 262144, 0x80 + c.toNat / 4096 % 64,
              0x80 + c.toNat / 64 % 64, 0x80 + c.toNat % 64] from by
          simp [utf8Bytes, h1, h2, h3]]
        simp only [List.map_cons, List.map_nil, List.cons_append,
          List.nil_append]
        rw [toksDecode_four _ (by omega) hc, Char.ofNat_toNat]

/-- The second decode phase inverts `tokensOf`. -/
theorem toksDecode_tokensOf (c : Char) (rest : List PctTok) :
    toksDecode (tokensOf c ++ rest) =
      (toksDecode rest).map (fun cs => c :: cs) := by
  by_cases hu : uriUnreserved c
  · simp only [tokensOf, if_pos hu, List.cons_append, List.nil_append]
    rfl
  · simp only [tokensOf, if_neg hu]
    exact toksDecode_utf8 c rest

/-- The second decode phase inverts the token encoding of a string. -/
theorem toksDecode_flat (l : List Char) :
    toksDecode (l.flatMap tokensOf) = some l := by
  induction l with
  | nil => rfl
  | cons c cs ih =>
    simp only [List.flatMap_cons]
    rw [toksDecode_tokensOf, ih]
    rfl

/-- Round trip: `decodeURIComponent` inverts `encodeURIComponent` on every
string. -/
theorem decodeURIComponent_encodeURIComponent (s : String) :
    decodeURIComponent (encodeURIComponent s) = some s := by
  obtain ⟨l⟩ := s
  simp only [decodeURIComponent, encodeURIComponent]
  rw [pctTokens_encode]
  simp only []
  rw [toksDecode_flat]
  rfl

/-! ## The session cookie round trip (`getCookie` ∘ `makeSessionCookie`) -/

/-- Unreserved characters are not `;`, not `=`, and not whitespace. -/
theorem uriUnreserved_safe (x : Char) (hx : uriUnreserved x = true) :
    x ≠ ';' ∧ x ≠ '=' ∧ jsWhitespace x = false := by
  refine ⟨?_, ?_, ?_⟩
  · rintro rfl
    revert hx
    decide
  · rintro rfl
    revert hx
    decide
  · cases h : jsWhitespace x with
    | false => rfl
    | true =>
      exfalso
      simp only [jsWhitespace, decide_eq_true_eq] at h
      rcases h with rfl | rfl | rfl | rfl | rfl | rfl <;> revert hx <;> decide

/-- Hex digit characters are not `;`, not `=`, and not whitespace. -/
theorem toHexDigit_safe (d : Nat) (h : d < 16) :
    toHexDigit d ≠ ';' ∧ toHexDigit d ≠ '=' ∧
      jsWhitespace (toHexDigit d) = false := by
  interval_cases d <;> decide

/-- Every character of the encoding of one character is cookie-safe. -/
theorem encodeChar_safe (c x : Char) (hx : x ∈ encodeChar c) :
    x ≠ ';' ∧ x ≠ '=' ∧ jsWhitespace x = false := by
  by_cases hu : uriUnreserved c
  · simp only [encodeChar, if_pos hu, List.mem_singleton] at hx
    subst hx
    exact uriUnreserved_safe _ hu
  · simp only [encodeChar, if_neg hu] at hx
    rw [List.mem_flatMap] at hx
    obtain ⟨b, hb, hxb⟩ := hx
    have hblt : b < 256 := utf8Bytes_lt _ (char_toNat_lt c) b hb
    simp only [escByte, List.mem_cons, List.not_mem_nil, or_false] at hxb
    rcases hxb with rfl | rfl | rfl
    · exact ⟨by decide, by decide, by decide⟩
    · exact toHexDigit_safe _ (by omega)
    · exact toHexDigit_safe _ (by omega)

/-- Every character `encodeURIComponent` emits is cookie-safe: not the pair
separator `;`, not the key separator `=`, and not whitespace. -/
theorem encodeURIComponent_safe (s : String) (x : Char)
    (hx : x ∈ (encodeURIComponent s).data) :
    x ≠ ';' ∧ x ≠ '=' ∧ jsWhitespace x = false := by
  have hx' : x ∈ s.data.flatMap encodeChar := hx
  rw [List.mem_flatMap] at hx'
  obtain ⟨c, _, hxc⟩ := hx'
  exact encodeChar_safe c x hxc

/-- Splitting a list that does not contain the separator yields it whole. -/
theorem splitChar_no_sep (sep : Char) (l : List Char)
    (h : ∀ x ∈ l, x ≠ sep) :
    splitChar sep l = [l] := by
  induction l with
  | nil => rfl
  | cons c cs ih =>
    simp only [splitChar]
    rw [ih (fun x hx => h x (List.mem_cons_of_mem c hx)),
      if_neg (h c (List.mem_cons_self c cs))]
    rfl

/-- Splitting at the first separator occurrence. -/
theorem splitChar_append (sep : Char) (xs ys : List Char)
    (h : ∀ x ∈ xs, x ≠ sep) :
    splitChar sep (xs ++ sep :: ys) = xs :: splitChar sep ys := by
  induction xs with
  | nil =>
    simp only [List.nil_append, splitChar]
    simp only [if_true]
  | cons c cs ih =>
    simp only [List.cons_append, splitChar, List.append_eq]
    rw [ih (fun x hx => h x (List.mem_cons_of_mem c hx)),
      if_neg (h c (List.mem_cons_self c cs))]
    rfl

/-- `dropWhile` is the identity when no element satisfies the predicate. -/
theorem dropWhile_jsWhitespace_eq_self (l : List Char)
    (h : ∀ x ∈ l, jsWhitespace x = false) :
    l.dropWhile jsWhitespace = l := by
  cases l with
  | nil => rfl
  | cons c cs =>
    rw [List.dropWhile_cons_of_neg]
    simp [h c (List.mem_cons_self c cs)]

/-- Trimming a string with no whitespace characters is the identity. -/
theorem jsTrim_eq_self (s : String)
    (h : ∀ x ∈ s.data, jsWhitespace x = false) :
    jsTrim s = s := by
  obtain ⟨l⟩ := s
  simp only [jsTrim]
  rw [dropWhile_jsWhitespace_eq_self l h,
    dropWhile_jsWhitespace_eq_self _ (fun x hx => h x (List.mem_reverse.mp hx)),
    List.reverse_reverse]

/-- Behaviour of the `getCookie` scan on a first part that parses into the
sought key and a single value. -/
theorem getCookieLoop_match (name part v : String) (rest : List String)
    (hparse : jsSplit (jsTrim part) '=' = [name, v]) :
    getCookieLoop name (part :: rest) =
      match decodeURIComponent v with
      | some d => Except.ok (some d)
      | none => Except.error "URIError: URI malformed" := by
  rw [getCookieLoop.eq_def]
  simp only []
  rw [hparse]
  simp only []
  simp only [if_true]
  simp [joinSep]

/-- C10: cookie round trip.  `getCookie` applied to a `Cookie` header carrying
the pair minted by `makeSessionCookie` recovers the session identifier
exactly: `decodeURIComponent` inverts `encodeURIComponent`. -/
theorem getCookie_makeSessionCookie (s : String) (secure : Bool) :
    getCookie (some (makeSessionCookie s secure)) "session" =
      Except.ok (some s) := by
  have hsafe := encodeURIComponent_safe s
  have hsess : ∀ x ∈ "session=".data, x ≠ ';' ∧ jsWhitespace x = false := by
    decide
  have hP1 : ∀ x ∈ "session=".data ++ (encodeURIComponent s).data, x ≠ ';' := by
    intro x hx
    rcases List.mem_append.mp hx with h | h
    · exact (hsess x h).1
    · exact (hsafe x h).1
  have hPws : ∀ x ∈ "session=".data ++ (encodeURIComponent s).data,
      jsWhitespace x = false := by
    intro x hx
    rcases List.mem_append.mp hx with h | h
    · exact (hsess x h).2
    · exact (hsafe x h).2.2
  have hdata : (makeSessionCookie s secure).data =
      ("session=".data ++ (encodeURIComponent s).data) ++
        ';' :: ((" Path=/; HttpOnly; SameSite=Lax; Max-Age=2592000" ++
          (if secure then "; Secure" else "")).data) := by
    simp only [makeSessionCookie, String.data_append, List.append_assoc]
    cases secure <;> rfl
  have hsplit : splitChar ';' (makeSessionCookie s secure).data =
      ("session=".data ++ (encodeURIComponent s).data) ::
        splitChar ';' ((" Path=/; HttpOnly; SameSite=Lax; Max-Age=2592000" ++
          (if secure then "; Secure" else "")).data) := by
    rw [hdata]
    exact splitChar_append ';' _ _ hP1
  simp only [getCookie, jsSplit]
  rw [hsplit]
  simp only [List.map_cons]
  have hparse : jsSplit
      (jsTrim ⟨"session=".data ++ (encodeURIComponent s).data⟩) '=' =
      ["session", encodeURIComponent s] := by
    rw [jsTrim_eq_self _ hPws]
    have hPeq : "session=".data ++ (encodeURIComponent s).data =
        "session".data ++ '=' :: (encodeURIComponent s).data := by
      rw [show "session=".data = "session".data ++ ['='] from by decide]
      simp [List.append_assoc]
    show (splitChar '='
        ("session=".data ++ (encodeURIComponent s).data)).map
        (fun l => (⟨l⟩ : String)) = ["session", encodeURIComponent s]
    rw [hPeq,
      splitChar_append '=' _ _ (by decide),
      splitChar_no_sep '=' _ (fun x hx => (hsafe x hx).2.1)]
    rfl
  rw [getCookieLoop_match "session" _ (encodeURIComponent s) _ hparse]
  rw [decodeURIComponent_encodeURIComponent]
